import Mathlib

/-!
# Verification of the YouTube ingestion/synchronization pipeline

Shallow embedding of `src/server/youtube-actions.ts`.

The upstream YouTube API is modelled as an explicit response environment
(`Env`): a fixed function from request arguments to responses, with `none`
standing for a transport/API failure of a call, and paginated endpoints
modelled as the finite sequence of page responses the upstream would serve
(a `Bool` flag records whether the page carried a continuation token).

The persistent store (the drizzle tables `YouTubeChannels`, `Videos`,
`VideoComments`) is modelled as lists of rows plus a generated-id counter;
`insert` appends a row with a fresh id, `update(pred, fields)` maps over the
rows, `select(pred)` filters.  Timestamps are `Nat`; `new Date()` is the
environment's `now`.

JavaScript runtime errors (property access on `undefined`, e.g.
`video.statistics.viewCount` when the upstream item had no `statistics`
object) and thrown `Error`s are both modelled by an `err : Option String`
component of the result; a run that throws stops processing and keeps the
store writes already performed, exactly as the sequence of awaited
single-row database operations in the source does.
-/

/-- A single thumbnail variant (`youtube_v3.Schema$Thumbnail`): only its URL
is used by the source. -/
structure Thumbnail where
  url : String
  deriving DecidableEq, Repr

/-- The set of optional thumbnail variants
(`youtube_v3.Schema$ThumbnailDetails`). -/
structure ThumbnailDetails where
  maxres : Option Thumbnail
  standard : Option Thumbnail
  high : Option Thumbnail
  medium : Option Thumbnail
  default : Option Thumbnail
  deriving DecidableEq, Repr

/-- The video snippet fields the source reads
(`youtube_v3.Schema$VideoSnippet`).  Per the upstream contract only numeric
statistics fields may be absent, so snippet fields are modelled as present;
`publishedAt` is the parsed timestamp. -/
structure Snippet where
  title : String
  description : String
  publishedAt : Nat
  thumbnails : ThumbnailDetails
  channelTitle : String
  deriving DecidableEq, Repr

/-- The four counters of `youtube_v3.Schema$VideoStatistics`; each may be
absent (`undefined`), in which case the source parses the string "0". -/
structure Stats where
  viewCount : Option Nat
  likeCount : Option Nat
  dislikeCount : Option Nat
  commentCount : Option Nat
  deriving DecidableEq, Repr

/-- A raw item of a `videos.list` response.  The `statistics` object itself
may be absent from the payload; the source's `item.statistics!` is only a
compile-time assertion and passes the absent value through. -/
structure RawItem where
  id : String
  snippet : Snippet
  statistics : Option Stats
  deriving DecidableEq, Repr

/-- The source's `YouTubeVideo` interface: `{ id: { videoId }, snippet,
statistics }` as produced by `fetchVideoDetails`. -/
structure YouTubeVideo where
  videoId : String
  snippet : Snippet
  statistics : Option Stats
  deriving DecidableEq, Repr

/-- The comment snippet fields the source reads
(`topLevelComment.snippet`). -/
structure CommentSnippet where
  textDisplay : String
  likeCount : Option Nat
  publishedAt : Nat
  deriving DecidableEq, Repr

/-- The source's `YouTubeComment` interface. -/
structure YouTubeComment where
  id : String
  snippet : CommentSnippet
  deriving DecidableEq, Repr

/-- One page of a `search.list` video-listing response: `none` is a
transport failure; otherwise the page's video ids and whether the response
carried a `nextPageToken`. -/
abbrev VideoPage := Option (List String × Bool)

/-- One page of a `commentThreads.list` response: `none` is a transport
failure; otherwise the page's comments and whether the response carried a
`nextPageToken`. -/
abbrev CommentPage := Option (List YouTubeComment × Bool)

/-- Modelled from the spec: a row of the `YouTubeChannels` table (the drizzle
schema module is not part of the sources; fields follow §3 of the spec and
the columns the source reads/writes: generated id, user-supplied name,
nullable upstream channel identifier, owning user id, timestamp). -/
structure ChannelRow where
  id : Nat
  name : String
  channelId : Option String
  userId : String
  updatedAt : Nat
  deriving DecidableEq, Repr

/-- Modelled from the spec: a row of the `Videos` table (schema module not in
the sources; fields follow §3 of the spec and the columns the source
reads/writes). -/
structure VideoRow where
  id : Nat
  videoId : String
  title : String
  description : String
  publishedAt : Nat
  thumbnailUrl : String
  channelId : String
  channelTitle : String
  userId : String
  viewCount : Nat
  likeCount : Nat
  dislikeCount : Nat
  commentCount : Nat
  createdAt : Nat
  updatedAt : Nat
  deriving DecidableEq, Repr

/-- Modelled from the spec: a row of the `VideoComments` table (schema module
not in the sources; fields follow §3 of the spec and the columns the source
writes).  `videoId` is the owning `VideoRow.id`. -/
structure CommentRow where
  id : Nat
  videoId : Nat
  userId : String
  commentText : String
  likeCount : Nat
  dislikeCount : Nat
  publishedAt : Nat
  deriving DecidableEq, Repr

/-- The persistent store: the three tables plus the generated-id counter. -/
structure Store where
  channels : List ChannelRow
  videos : List VideoRow
  comments : List CommentRow
  nextId : Nat
  deriving DecidableEq, Repr

/-- The fixed upstream response environment for one run: channel search
results, the page sequence a channel's video listing would serve, the
`videos.list` response for a batch of ids, the page sequence of a video's
comment threads, and the current time. -/
structure Env where
  search : String → Option String
  listPages : String → List VideoPage
  detailsResp : List String → Option (List RawItem)
  commentPages : String → List CommentPage
  now : Nat

/-- An upstream API invocation, recorded for call-trace reasoning. -/
inductive ApiCall where
  | searchChannel : String → ApiCall
  | listVideos : String → ApiCall
  | videoDetails : List String → ApiCall
  | commentThreads : String → ApiCall
  deriving DecidableEq, Repr

/-- `getChannelId`: one search call; a transport failure and an empty result
set both yield `null` in the source, hence a single `Option`. -/
def getChannelId (env : Env) (channelName : String) : Option String :=
  env.search channelName

/-- The accumulation loop of `fetchAllVideosForChannel`: consume the page
responses in order, concatenating ids; a transport failure aborts the loop;
the loop continues only while a continuation token is present.  The second
component counts the page requests actually issued. -/
def fetchAllVideosForChannelAux : List VideoPage → List String → List String × Nat
  | [], acc => (acc, 0)
  | p :: rest, acc =>
    match p with
    | none => (acc, 1)
    | some (ids, hasNext) =>
      if hasNext then
        let r := fetchAllVideosForChannelAux rest (acc ++ ids)
        (r.1, r.2 + 1)
      else (acc ++ ids, 1)

/-- `fetchAllVideosForChannel` over the page sequence the environment serves
for a channel id. -/
def fetchAllVideosForChannel (pages : List VideoPage) : List String :=
  (fetchAllVideosForChannelAux pages []).1

/-- Number of listing page requests `fetchAllVideosForChannel` issues. -/
def fetchAllVideosForChannelRequests (pages : List VideoPage) : Nat :=
  (fetchAllVideosForChannelAux pages []).2

/-- `fetchVideoDetails`: on failure return `[]`; otherwise reshape each item
to the `YouTubeVideo` interface (`id.videoId := item.id`). -/
def fetchVideoDetails (ids : List String) (resp : Option (List RawItem)) :
    List YouTubeVideo :=
  match resp with
  | none => []
  | some items =>
    items.map (fun it =>
      { videoId := it.id, snippet := it.snippet, statistics := it.statistics })

/-- The accumulation loop of `fetchVideoComments`: concatenate each page's
comments; as soon as 100 comments are accumulated, truncate to 100 and stop;
a transport failure aborts the loop; otherwise continue only while a
continuation token is present.  The second component counts page requests. -/
def fetchVideoCommentsAux : List CommentPage → List YouTubeComment →
    List YouTubeComment × Nat
  | [], acc => (acc, 0)
  | p :: rest, acc =>
    match p with
    | none => (acc, 1)
    | some (cs, hasNext) =>
      let acc2 := acc ++ cs
      if 100 ≤ acc2.length then (acc2.take 100, 1)
      else if hasNext then
        let r := fetchVideoCommentsAux rest acc2
        (r.1, r.2 + 1)
      else (acc2, 1)

/-- `fetchVideoComments` over the page sequence the environment serves for a
video id. -/
def fetchVideoComments (pages : List CommentPage) : List YouTubeComment :=
  (fetchVideoCommentsAux pages []).1

/-- Number of comment page requests `fetchVideoComments` issues. -/
def fetchVideoCommentsRequests (pages : List CommentPage) : Nat :=
  (fetchVideoCommentsAux pages []).2

/-- `getBestThumbnail`.  The source returns `thumbnails.default!.url!` in the
last case; when `default` is absent too, the JavaScript property access
throws, modelled by `none`. -/
def getBestThumbnail (t : ThumbnailDetails) : Option String :=
  match t.maxres with
  | some v => some v.url
  | none =>
    match t.standard with
    | some v => some v.url
    | none =>
      match t.high with
      | some v => some v.url
      | none =>
        match t.medium with
        | some v => some v.url
        | none => t.default.map Thumbnail.url

/-- The result of a pipeline stage: the store after its writes, the newly
inserted `Video` rows, the upstream calls issued, and the error thrown (if
any).  Store writes performed before a throw are kept. -/
structure StepOut where
  store : Store
  newVideos : List VideoRow
  calls : List ApiCall
  err : Option String
  deriving Repr

/-- The comment-insertion loop of `scrapeVideos`: one row per fetched
comment, parent reference `rowId`, dislike count always 0. -/
def insertComments (u : String) (rowId : Nat) (cs : List YouTubeComment)
    (st : Store) : Store :=
  match cs with
  | [] => st
  | c :: rest =>
    insertComments u rowId rest
      { st with
        comments := st.comments ++
          [{ id := st.nextId, videoId := rowId, userId := u,
             commentText := c.snippet.textDisplay,
             likeCount := c.snippet.likeCount.getD 0, dislikeCount := 0,
             publishedAt := c.snippet.publishedAt }],
        nextId := st.nextId + 1 }

/-- The per-video body of `scrapeVideos`'s inner loop: dedup-check on
(upstream video id, user id); insert a new row when absent (this is where a
missing `statistics` object or a thumbnail set without `default` makes the
JavaScript throw); then fetch and insert that video's comments. -/
def processVideo (env : Env) (u cid : String) (v : YouTubeVideo) (st : Store) :
    StepOut :=
  match st.videos.find? (fun r => r.videoId == v.videoId && r.userId == u) with
  | some ex =>
    let cs := fetchVideoComments (env.commentPages v.videoId)
    { store := insertComments u ex.id cs st, newVideos := [],
      calls := [ApiCall.commentThreads v.videoId], err := none }
  | none =>
    match getBestThumbnail v.snippet.thumbnails with
    | none =>
      { store := st, newVideos := [], calls := [],
        err := some "TypeError: thumbnails default is undefined" }
    | some thumb =>
      match v.statistics with
      | none =>
        { store := st, newVideos := [], calls := [],
          err := some "TypeError: statistics is undefined" }
      | some s =>
        let row : VideoRow :=
          { id := st.nextId, videoId := v.videoId, title := v.snippet.title,
            description := v.snippet.description,
            publishedAt := v.snippet.publishedAt, thumbnailUrl := thumb,
            channelId := cid, channelTitle := v.snippet.channelTitle,
            userId := u, viewCount := s.viewCount.getD 0,
            likeCount := s.likeCount.getD 0,
            dislikeCount := s.dislikeCount.getD 0,
            commentCount := s.commentCount.getD 0, createdAt := env.now,
            updatedAt := env.now }
        let st1 := { st with videos := st.videos ++ [row],
                             nextId := st.nextId + 1 }
        let cs := fetchVideoComments (env.commentPages v.videoId)
        { store := insertComments u row.id cs st1, newVideos := [row],
          calls := [ApiCall.commentThreads v.videoId], err := none }

/-- The per-channel video loop of `scrapeVideos`: process each fetched video
in order; a thrown error stops the loop (earlier writes kept). -/
def processVideos (env : Env) (u cid : String) :
    List YouTubeVideo → Store → StepOut
  | [], st => ⟨st, [], [], none⟩
  | v :: rest, st =>
    let o := processVideo env u cid v st
    match o.err with
    | some _ => o
    | none =>
      let o2 := processVideos env u cid rest o.store
      ⟨o2.store, o.newVideos ++ o2.newVideos, o.calls ++ o2.calls, o2.err⟩

/-- Video enumeration, batched detail lookup and the video loop for a channel
whose upstream id `cid` is known. -/
def processResolved (env : Env) (u cid : String) (st : Store) : StepOut :=
  let videoIds := fetchAllVideosForChannel (env.listPages cid)
  let details := fetchVideoDetails videoIds (env.detailsResp videoIds)
  let o := processVideos env u cid details st
  { o with calls := ApiCall.listVideos cid :: ApiCall.videoDetails videoIds ::
      o.calls }

/-- The per-channel body of `scrapeVideos`: resolve the channel id when it is
not stored (a failed search skips the channel; a successful search persists
the id onto the channel row, predicate `id = channel.id AND userId = u`),
then enumerate and process the channel's videos. -/
def processChannel (env : Env) (u : String) (ch : ChannelRow) (st : Store) :
    StepOut :=
  match ch.channelId with
  | some cid => processResolved env u cid st
  | none =>
    match getChannelId env ch.name with
    | none =>
      { store := st, newVideos := [],
        calls := [ApiCall.searchChannel ch.name], err := none }
    | some cid =>
      let st1 :=
        { st with
          channels := st.channels.map (fun c =>
            if c.id = ch.id ∧ c.userId = u then
              { c with channelId := some cid, updatedAt := env.now }
            else c) }
      let o := processResolved env u cid st1
      { o with calls := ApiCall.searchChannel ch.name :: o.calls }

/-- The channel loop of `scrapeVideos`: process the captured channel list in
order; a thrown error stops the run (earlier writes kept). -/
def processChannels (env : Env) (u : String) : List ChannelRow → Store → StepOut
  | [], st => ⟨st, [], [], none⟩
  | ch :: rest, st =>
    let o := processChannel env u ch st
    match o.err with
    | some _ => o
    | none =>
      let o2 := processChannels env u rest o.store
      ⟨o2.store, o.newVideos ++ o2.newVideos, o.calls ++ o2.calls, o2.err⟩

/-- `scrapeVideos`: authentication precondition, channel-existence
precondition, then the channel loop. -/
def scrapeVideos (env : Env) (uid : Option String) (st : Store) : StepOut :=
  match uid with
  | none => ⟨st, [], [], some "User not authenticated"⟩
  | some u =>
    let channels := st.channels.filter (fun c => c.userId == u)
    if channels.isEmpty then
      ⟨st, [], [], some "No channels found for the user"⟩
    else processChannels env u channels st

/-- The per-video body of `updateVideoStatistics`: single-item detail fetch;
when nothing is found the row is skipped; otherwise an update of the four
counters and `updatedAt` on every row whose upstream `videoId` matches (the
source's predicate is `eq(Videos.videoId, video.videoId)` alone, with no
user-id conjunct).  An absent `statistics` object makes the JavaScript
throw. -/
def refreshVideo (env : Env) (v : VideoRow) (st : Store) :
    Store × Option String :=
  match (fetchVideoDetails [v.videoId] (env.detailsResp [v.videoId])).head? with
  | none => (st, none)
  | some item =>
    match item.statistics with
    | none => (st, some "TypeError: statistics is undefined")
    | some s =>
      ({ st with
         videos := st.videos.map (fun r =>
           if r.videoId = v.videoId then
             { r with
               viewCount := s.viewCount.getD 0,
               likeCount := s.likeCount.getD 0,
               dislikeCount := s.dislikeCount.getD 0,
               commentCount := s.commentCount.getD 0,
               updatedAt := env.now }
           else r) }, none)

/-- The video loop of `updateVideoStatistics` over the captured list of the
user's videos; a thrown error stops the loop (earlier writes kept). -/
def refreshVideos (env : Env) : List VideoRow → Store → Store × Option String
  | [], st => (st, none)
  | v :: rest, st =>
    let r := refreshVideo env v st
    match r.2 with
    | some e => (r.1, some e)
    | none => refreshVideos env rest r.1

/-- `updateVideoStatistics`: authentication precondition, then the refresh
loop over the videos stored for the user. -/
def updateVideoStatistics (env : Env) (uid : Option String) (st : Store) :
    Store × Option String :=
  match uid with
  | none => (st, some "User not authenticated")
  | some u => refreshVideos env (st.videos.filter (fun r => r.userId == u)) st

/-- The ids carried by one listing page (empty for a failed page). -/
def pageIds (p : VideoPage) : List String :=
  match p with
  | some (l, _) => l
  | none => []

/-- Concatenation of the ids of a sequence of listing pages. -/
def flatIds : List VideoPage → List String
  | [] => []
  | p :: rest => pageIds p ++ flatIds rest

/-- The comments carried by one comment page (empty for a failed page). -/
def pageComments (p : CommentPage) : List YouTubeComment :=
  match p with
  | some (l, _) => l
  | none => []

/-- Concatenation of the comments of a sequence of comment pages. -/
def flatComments : List CommentPage → List YouTubeComment
  | [] => []
  | p :: rest => pageComments p ++ flatComments rest

lemma fetchAllAux_last (pre : List VideoPage) :
    ∀ acc ids, (∀ p ∈ pre, ∃ l, p = some (l, true)) →
    fetchAllVideosForChannelAux (pre ++ [some (ids, false)]) acc =
      (acc ++ (flatIds pre ++ ids), pre.length + 1) := by
  induction pre with
  | nil => intro acc ids _; simp [fetchAllVideosForChannelAux, flatIds]
  | cons p rest ih =>
    intro acc ids hpre
    obtain ⟨l, hl⟩ := hpre p (by simp)
    subst hl
    have ih2 := ih (acc ++ l) ids (fun q hq => hpre q (by simp [hq]))
    simp [fetchAllVideosForChannelAux, List.append_eq, ih2, flatIds, pageIds,
      List.append_assoc]

lemma fetchAllAux_fail (pre : List VideoPage) :
    ∀ acc rest, (∀ p ∈ pre, ∃ l, p = some (l, true)) →
    fetchAllVideosForChannelAux (pre ++ none :: rest) acc =
      (acc ++ flatIds pre, pre.length + 1) := by
  induction pre with
  | nil => intro acc rest _; simp [fetchAllVideosForChannelAux, flatIds]
  | cons p rest ih =>
    intro acc rest2 hpre
    obtain ⟨l, hl⟩ := hpre p (by simp)
    subst hl
    have ih2 := ih (acc ++ l) rest2 (fun q hq => hpre q (by simp [hq]))
    simp [fetchAllVideosForChannelAux, List.append_eq, ih2, flatIds, pageIds,
      List.append_assoc]

/-- Claim C7: for every upstream response sequence with finitely many pages
(a continuation token only when a further page exists), the video enumerator
returns the concatenation of all pages' video identifiers, issuing one
request per page; on a page's transport failure it aborts immediately after
that request, without retry, and returns exactly the identifiers accumulated
from the pages fetched before the failure.  (Termination is witnessed by
`fetchAllVideosForChannelAux` being a total structurally recursive function
of the finite page sequence.) -/
theorem fetchAllVideosForChannel_pagination (pre : List VideoPage)
    (hpre : ∀ p ∈ pre, ∃ l, p = some (l, true)) :
    (∀ ids, fetchAllVideosForChannel (pre ++ [some (ids, false)]) =
        flatIds pre ++ ids ∧
      fetchAllVideosForChannelRequests (pre ++ [some (ids, false)]) =
        pre.length + 1) ∧
    (∀ rest, fetchAllVideosForChannel (pre ++ none :: rest) = flatIds pre ∧
      fetchAllVideosForChannelRequests (pre ++ none :: rest) =
        pre.length + 1) := by
  refine ⟨fun ids => ⟨?_, ?_⟩, fun rest => ⟨?_, ?_⟩⟩
  · show (fetchAllVideosForChannelAux (pre ++ [some (ids, false)]) []).1 = _
    rw [fetchAllAux_last pre [] ids hpre]; simp
  · show (fetchAllVideosForChannelAux (pre ++ [some (ids, false)]) []).2 = _
    rw [fetchAllAux_last pre [] ids hpre]
  · show (fetchAllVideosForChannelAux (pre ++ none :: rest) []).1 = _
    rw [fetchAllAux_fail pre [] rest hpre]; simp
  · show (fetchAllVideosForChannelAux (pre ++ none :: rest) []).2 = _
    rw [fetchAllAux_fail pre [] rest hpre]

/-- Witness for C7: a two-page catalog (50-id page with token, 3-id page
without), and the same catalog failing on its second page. -/
theorem fetchAllVideosForChannel_pagination_witness :
    fetchAllVideosForChannel
        [some (List.replicate 50 "a", true), some (["b", "c", "d"], false)] =
      flatIds [some (List.replicate 50 "a", true)] ++ ["b", "c", "d"] ∧
    fetchAllVideosForChannel [some (List.replicate 50 "a", true), none] =
      flatIds [some (List.replicate 50 "a", true)] ∧
    fetchAllVideosForChannelRequests
        [some (List.replicate 50 "a", true), none] = 2 := by
  have h := fetchAllVideosForChannel_pagination
    [some (List.replicate 50 "a", true)]
    (by intro p hp; simp at hp; exact ⟨List.replicate 50 "a", hp⟩)
  exact ⟨(h.1 ["b", "c", "d"]).1, (h.2 []).1, (h.2 []).2⟩

lemma commentsAux_bound (pages : List CommentPage) :
    ∀ acc : List YouTubeComment, acc.length ≤ 100 →
    (fetchVideoCommentsAux pages acc).1.length ≤ 100 := by
  induction pages with
  | nil => intro acc h; simpa [fetchVideoCommentsAux] using h
  | cons p rest ih =>
    intro acc h
    match p with
    | none => simpa [fetchVideoCommentsAux] using h
    | some (cs, hasNext) =>
      simp only [fetchVideoCommentsAux]
      split
      · simp
      · next hcap =>
          split
          · exact ih (acc ++ cs)
              (by simp only [List.length_append] at hcap ⊢; omega)
          · simp only [List.length_append] at hcap ⊢
            omega

lemma commentsAux_cap (pre : List CommentPage) :
    ∀ (acc : List YouTubeComment) cs b rest,
    (∀ p ∈ pre, ∃ l, p = some (l, true)) →
    (acc ++ flatComments pre).length < 100 →
    100 ≤ (acc ++ flatComments pre).length + cs.length →
    fetchVideoCommentsAux (pre ++ some (cs, b) :: rest) acc =
      (((acc ++ flatComments pre) ++ cs).take 100, pre.length + 1) := by
  induction pre with
  | nil =>
    intro acc cs b rest _ _ hcap
    simp only [flatComments, List.append_nil] at hcap ⊢
    simp only [List.nil_append, fetchVideoCommentsAux]
    rw [if_pos (by simpa using hcap)]
    simp
  | cons p rest ih =>
    intro acc cs b rest2 hpre hlt hcap
    obtain ⟨l, hl⟩ := hpre p (by simp)
    subst hl
    simp only [flatComments, pageComments] at hlt hcap
    have hsmall : ¬ 100 ≤ acc.length + l.length := by
      simp only [List.length_append] at hlt; omega
    have ih2 := ih (acc ++ l) cs b rest2 (fun q hq => hpre q (by simp [hq]))
      (by simpa [List.append_assoc] using hlt)
      (by simpa [List.append_assoc] using hcap)
    simp [fetchVideoCommentsAux, hsmall, List.append_eq, ih2, flatComments,
      pageComments, List.append_assoc]

lemma commentsAux_fail (pre : List CommentPage) :
    ∀ (acc : List YouTubeComment) rest,
    (∀ p ∈ pre, ∃ l, p = some (l, true)) →
    (acc ++ flatComments pre).length < 100 →
    fetchVideoCommentsAux (pre ++ none :: rest) acc =
      (acc ++ flatComments pre, pre.length + 1) := by
  induction pre with
  | nil => intro acc rest _ _; simp [fetchVideoCommentsAux, flatComments]
  | cons p rest ih =>
    intro acc rest2 hpre hlt
    obtain ⟨l, hl⟩ := hpre p (by simp)
    subst hl
    simp only [flatComments, pageComments] at hlt
    have hsmall : ¬ 100 ≤ acc.length + l.length := by
      simp only [List.length_append] at hlt; omega
    have ih2 := ih (acc ++ l) rest2 (fun q hq => hpre q (by simp [hq]))
      (by simpa [List.append_assoc] using hlt)
    simp [fetchVideoCommentsAux, hsmall, List.append_eq, ih2, flatComments,
      pageComments, List.append_assoc]

/-- Claim C3: the comment fetcher returns at most 100 comments for every
page sequence; as soon as the accumulated count reaches or exceeds 100 (even
within a single page) it truncates to exactly 100 and issues no further page
request; on a mid-pagination transport failure it stops after that request
and returns the comments accumulated so far. -/
theorem fetchVideoComments_cap (pages : List CommentPage) :
    (fetchVideoComments pages).length ≤ 100 ∧
    (∀ pre cs b rest, pages = pre ++ some (cs, b) :: rest →
      (∀ p ∈ pre, ∃ l, p = some (l, true)) →
      (flatComments pre).length < 100 →
      100 ≤ (flatComments pre).length + cs.length →
      fetchVideoComments pages = (flatComments pre ++ cs).take 100 ∧
      (fetchVideoComments pages).length = 100 ∧
      fetchVideoCommentsRequests pages = pre.length + 1) ∧
    (∀ pre rest, pages = pre ++ none :: rest →
      (∀ p ∈ pre, ∃ l, p = some (l, true)) →
      (flatComments pre).length < 100 →
      fetchVideoComments pages = flatComments pre ∧
      fetchVideoCommentsRequests pages = pre.length + 1) := by
  refine ⟨commentsAux_bound pages [] (by simp), ?_, ?_⟩
  · intro pre cs b rest hsplit hpre hlt hcap
    subst hsplit
    have h := commentsAux_cap pre [] cs b rest hpre (by simpa using hlt)
      (by simpa using hcap)
    refine ⟨?_, ?_, ?_⟩
    · show (fetchVideoCommentsAux (pre ++ some (cs, b) :: rest) []).1 = _
      rw [h]; simp
    · show (fetchVideoCommentsAux (pre ++ some (cs, b) :: rest) []).1.length = _
      rw [h]
      simp only [List.nil_append, List.length_take, List.length_append]
      omega
    · show (fetchVideoCommentsAux (pre ++ some (cs, b) :: rest) []).2 = _
      rw [h]
  · intro pre rest hsplit hpre hlt
    subst hsplit
    have h := commentsAux_fail pre [] rest hpre (by simpa using hlt)
    constructor
    · show (fetchVideoCommentsAux (pre ++ none :: rest) []).1 = _
      rw [h]; simp
    · show (fetchVideoCommentsAux (pre ++ none :: rest) []).2 = _
      rw [h]

/-- A sample comment used by concrete witnesses. -/
def sampleComment : YouTubeComment :=
  { id := "c",
    snippet :=
      { textDisplay := "t",
        likeCount := some 1,
        publishedAt := 5 } }

/-- Witness for C3: a single page carrying 120 comments with a continuation
token is truncated to exactly 100 with no second page request, and a run
whose second page fails returns the 40 comments of the first page. -/
theorem fetchVideoComments_cap_witness :
    (fetchVideoComments
        [some (List.replicate 120 sampleComment, true)]).length = 100 ∧
    fetchVideoCommentsRequests
        [some (List.replicate 120 sampleComment, true)] = 1 ∧
    fetchVideoComments
        [some (List.replicate 40 sampleComment, true), none, some ([], true)] =
      flatComments [some (List.replicate 40 sampleComment, true)] ∧
    fetchVideoCommentsRequests
        [some (List.replicate 40 sampleComment, true), none, some ([], true)] =
      2 := by
  have h1 := (fetchVideoComments_cap
    [some (List.replicate 120 sampleComment, true)]).2.1 []
    (List.replicate 120 sampleComment) true [] rfl (by simp)
    (by simp [flatComments]) (by simp [flatComments])
  have h2 := (fetchVideoComments_cap
    [some (List.replicate 40 sampleComment, true), none,
      some ([], true)]).2.2 [some (List.replicate 40 sampleComment, true)]
    [some ([], true)] rfl
    (by intro p hp; simp at hp; exact ⟨List.replicate 40 sampleComment, hp⟩)
    (by simp [flatComments, pageComments])
  exact ⟨h1.2.1, h1.2.2, h2.1, h2.2⟩

/-- Claim C6: the detail fetcher returns the empty list on any transport/API
failure; and whenever the upstream response satisfies its contract (each
item's id is one of the requested ids, no more items than requested ids),
the output has at most as many records as input identifiers and every output
identifier is an element of the input. -/
theorem fetchVideoDetails_bounds (ids : List String) :
    fetchVideoDetails ids none = [] ∧
    ∀ items : List RawItem, (∀ it ∈ items, it.id ∈ ids) →
      items.length ≤ ids.length →
      (fetchVideoDetails ids (some items)).length ≤ ids.length ∧
      ∀ v ∈ fetchVideoDetails ids (some items), v.videoId ∈ ids := by
  refine ⟨rfl, fun items hin hlen => ⟨?_, ?_⟩⟩
  · simpa [fetchVideoDetails] using hlen
  · intro v hv
    simp only [fetchVideoDetails, List.mem_map] at hv
    obtain ⟨it, hit, rfl⟩ := hv
    exact hin it hit

/-- A sample snippet used by concrete witnesses. -/
def sampleSnippet : Snippet :=
  { title := "T",
    description := "D",
    publishedAt := 3,
    thumbnails :=
      { maxres := none,
        standard := none,
        high := none,
        medium := none,
        default := some ⟨"urlD"⟩ },
    channelTitle := "CT" }

/-- A sample raw details item with full statistics. -/
def sampleItem : RawItem :=
  { id := "v1",
    snippet := sampleSnippet,
    statistics :=
      some { viewCount := some 7,
             likeCount := some 5,
             dislikeCount := none,
             commentCount := some 2 } }

/-- Witness for C6: requesting ids ["v1", "v2"] against a one-item response
(and against a failing call). -/
theorem fetchVideoDetails_bounds_witness :
    fetchVideoDetails ["v1", "v2"] none = [] ∧
    (fetchVideoDetails ["v1", "v2"] (some [sampleItem])).length ≤ 2 ∧
    ∀ v ∈ fetchVideoDetails ["v1", "v2"] (some [sampleItem]),
      v.videoId ∈ ["v1", "v2"] := by
  have h := fetchVideoDetails_bounds ["v1", "v2"]
  have h2 := h.2 [sampleItem] (by intro it hit; simp at hit; subst hit; simp [sampleItem])
    (by simp)
  exact ⟨h.1, h2.1, h2.2⟩

/-- Claim C9: when the `default` variant is present, the thumbnail selector
returns (without error) the URL of the highest-resolution variant present in
the priority order maxres, standard, high, medium, default. -/
theorem getBestThumbnail_priority (t : ThumbnailDetails)
    (hdef : t.default.isSome) :
    (getBestThumbnail t).isSome ∧
    (∀ v, t.maxres = some v → getBestThumbnail t = some v.url) ∧
    (t.maxres = none → ∀ v, t.standard = some v →
      getBestThumbnail t = some v.url) ∧
    (t.maxres = none → t.standard = none → ∀ v, t.high = some v →
      getBestThumbnail t = some v.url) ∧
    (t.maxres = none → t.standard = none → t.high = none →
      ∀ v, t.medium = some v → getBestThumbnail t = some v.url) ∧
    (t.maxres = none → t.standard = none → t.high = none → t.medium = none →
      ∀ v, t.default = some v → getBestThumbnail t = some v.url) := by
  obtain ⟨d, hd⟩ := Option.isSome_iff_exists.mp hdef
  refine ⟨?_, ?_, ?_, ?_, ?_, ?_⟩
  · unfold getBestThumbnail
    cases hm : t.maxres with
    | some v => simp
    | none =>
      cases hs : t.standard with
      | some v => simp
      | none =>
        cases hh : t.high with
        | some v => simp
        | none =>
          cases hmed : t.medium with
          | some v => simp
          | none => simp [hd]
  · intro v hv; unfold getBestThumbnail; rw [hv]
  · intro hm v hv; unfold getBestThumbnail; rw [hm, hv]
  · intro hm hs v hv; unfold getBestThumbnail; rw [hm, hs, hv]
  · intro hm hs hh v hv; unfold getBestThumbnail; rw [hm, hs, hh, hv]
  · intro hm hs hh hmed v hv; unfold getBestThumbnail
    rw [hm, hs, hh, hmed, hv]; rfl

/-- Witness for C9: the three scenarios named by the specification — all five
variants present yields maxres; medium and default only yields medium; only
default yields default. -/
theorem getBestThumbnail_priority_witness :
    getBestThumbnail
        { maxres := some ⟨"uM"⟩, standard := some ⟨"uS"⟩, high := some ⟨"uH"⟩,
          medium := some ⟨"uMed"⟩, default := some ⟨"uD"⟩ } = some "uM" ∧
    getBestThumbnail
        { maxres := none, standard := none, high := none,
          medium := some ⟨"uMed"⟩, default := some ⟨"uD"⟩ } = some "uMed" ∧
    getBestThumbnail
        { maxres := none, standard := none, high := none, medium := none,
          default := some ⟨"uD"⟩ } = some "uD" := by
  refine ⟨?_, ?_, ?_⟩
  · exact (getBestThumbnail_priority _ (by simp)).2.1 ⟨"uM"⟩ rfl
  · exact (getBestThumbnail_priority _ (by simp)).2.2.2.2.1 rfl rfl rfl
      ⟨"uMed"⟩ rfl
  · exact (getBestThumbnail_priority _ (by simp)).2.2.2.2.2 rfl rfl rfl rfl
      ⟨"uD"⟩ rfl

/-- Claim C4: `scrapeVideos` raises its precondition failures before any
work: with no authenticated user it throws "User not authenticated", and for
an authenticated user with no registered channels it throws "No channels
found for the user"; in both cases the returned store is exactly the input
store (zero writes) and the upstream call trace is empty. -/
theorem scrapeVideos_preconditions (env : Env) (st : Store) :
    scrapeVideos env none st =
      ⟨st, [], [], some "User not authenticated"⟩ ∧
    ∀ u, st.channels.filter (fun c => c.userId == u) = [] →
      scrapeVideos env (some u) st =
        ⟨st, [], [], some "No channels found for the user"⟩ := by
  refine ⟨rfl, fun u h => ?_⟩
  simp [scrapeVideos, h]

/-- An upstream environment where every call fails. -/
def deadEnv : Env :=
  { search := fun _ => none,
    listPages := fun _ => [],
    detailsResp := fun _ => none,
    commentPages := fun _ => [],
    now := 0 }

/-- A channel row owned by user "u2". -/
def chanU2 : ChannelRow :=
  { id := 0,
    name := "Acme",
    channelId := none,
    userId := "u2",
    updatedAt := 0 }

/-- A store holding only `chanU2`. -/
def storeOnlyU2 : Store :=
  { channels := [chanU2],
    videos := [],
    comments := [],
    nextId := 1 }

/-- Witness for C4: user "u1" has no channels in `storeOnlyU2`. -/
theorem scrapeVideos_preconditions_witness :
    scrapeVideos deadEnv (some "u1") storeOnlyU2 =
      ⟨storeOnlyU2, [], [], some "No channels found for the user"⟩ := by
  exact (scrapeVideos_preconditions deadEnv storeOnlyU2).2 "u1" (by decide)

/-- The fields of a `Video` row that the statistics refresher is never
supposed to revise: everything except the four counters and `updatedAt`. -/
structure VideoFrame where
  id : Nat
  videoId : String
  title : String
  description : String
  publishedAt : Nat
  thumbnailUrl : String
  channelId : String
  channelTitle : String
  userId : String
  createdAt : Nat
  deriving DecidableEq, Repr

/-- Projection of a row onto its non-counter fields. -/
def frameFields (r : VideoRow) : VideoFrame :=
  { id := r.id,
    videoId := r.videoId,
    title := r.title,
    description := r.description,
    publishedAt := r.publishedAt,
    thumbnailUrl := r.thumbnailUrl,
    channelId := r.channelId,
    channelTitle := r.channelTitle,
    userId := r.userId,
    createdAt := r.createdAt }

lemma refreshVideo_frame (env : Env) (v : VideoRow) (st : Store) :
    (refreshVideo env v st).1.channels = st.channels ∧
    (refreshVideo env v st).1.comments = st.comments ∧
    (refreshVideo env v st).1.nextId = st.nextId ∧
    (refreshVideo env v st).1.videos.length = st.videos.length ∧
    ∀ (i : Nat) r0, st.videos[i]? = some r0 →
      ∃ r1, (refreshVideo env v st).1.videos[i]? = some r1 ∧
        frameFields r1 = frameFields r0 ∧
        (r0.videoId ≠ v.videoId → r1 = r0) := by
  cases h : (fetchVideoDetails [v.videoId] (env.detailsResp [v.videoId])).head? with
  | none =>
    simp only [refreshVideo, h]
    exact ⟨trivial, trivial, trivial, trivial,
      fun i r0 h0 => ⟨r0, h0, rfl, fun _ => rfl⟩⟩
  | some item =>
    cases hs : item.statistics with
    | none =>
      simp only [refreshVideo, h, hs]
      exact ⟨trivial, trivial, trivial, trivial,
        fun i r0 h0 => ⟨r0, h0, rfl, fun _ => rfl⟩⟩
    | some s =>
      simp only [refreshVideo, h, hs]
      refine ⟨trivial, trivial, trivial, by simp, ?_⟩
      intro i r0 h0
      refine ⟨if r0.videoId = v.videoId then
          { r0 with
            viewCount := s.viewCount.getD 0,
            likeCount := s.likeCount.getD 0,
            dislikeCount := s.dislikeCount.getD 0,
            commentCount := s.commentCount.getD 0,
            updatedAt := env.now }
        else r0, ?_, ?_, ?_⟩
      · simp [List.getElem?_map, h0]
      · split <;> simp [frameFields]
      · intro hne; simp [hne]

lemma refreshVideos_frame (env : Env) (vs : List VideoRow) :
    ∀ st : Store,
    (refreshVideos env vs st).1.channels = st.channels ∧
    (refreshVideos env vs st).1.comments = st.comments ∧
    (refreshVideos env vs st).1.nextId = st.nextId ∧
    (refreshVideos env vs st).1.videos.length = st.videos.length ∧
    ∀ (i : Nat) r0, st.videos[i]? = some r0 →
      ∃ r1, (refreshVideos env vs st).1.videos[i]? = some r1 ∧
        frameFields r1 = frameFields r0 ∧
        ((∀ w ∈ vs, w.videoId ≠ r0.videoId) → r1 = r0) := by
  induction vs with
  | nil =>
    intro st
    exact ⟨rfl, rfl, rfl, rfl, fun i r0 h0 => ⟨r0, h0, rfl, fun _ => rfl⟩⟩
  | cons v rest ih =>
    intro st
    have hstep := refreshVideo_frame env v st
    cases he : (refreshVideo env v st).2 with
    | some e =>
      simp only [refreshVideos, he]
      refine ⟨hstep.1, hstep.2.1, hstep.2.2.1, hstep.2.2.2.1, ?_⟩
      intro i r0 h0
      obtain ⟨r1, h1, hf, hu⟩ := hstep.2.2.2.2 i r0 h0
      exact ⟨r1, h1, hf, fun hw => hu (fun h => (hw v (by simp)) h.symm)⟩
    | none =>
      simp only [refreshVideos, he]
      have irest := ih (refreshVideo env v st).1
      refine ⟨irest.1.trans hstep.1, irest.2.1.trans hstep.2.1,
        irest.2.2.1.trans hstep.2.2.1,
        irest.2.2.2.1.trans hstep.2.2.2.1, ?_⟩
      intro i r0 h0
      obtain ⟨r1, h1, hf1, hu1⟩ := hstep.2.2.2.2 i r0 h0
      obtain ⟨r2, h2, hf2, hu2⟩ := irest.2.2.2.2 i r1 h1
      refine ⟨r2, h2, hf2.trans hf1, ?_⟩
      intro hw
      have e1 : r1 = r0 := hu1 (fun h => hw v (by simp) h.symm)
      have e2 : r2 = r1 := by
        apply hu2
        intro w hwr
        rw [e1]
        exact hw w (by simp [hwr])
      rw [e2, e1]

/-- Claim C1 (amended): `updateVideoStatistics` leaves channels, comments
and the id counter untouched and modifies, on every `Video` row it touches,
only the four counters and `updatedAt` (the `frameFields` projection of
every row is preserved, positionally); moreover every row whose upstream
video identifier differs from that of all of the authenticated user's videos
is left completely unchanged.  (The claim's further assertion that rows of
*other* users are never modified is false: the update predicate matches on
the upstream video id alone, see
`updateVideoStatistics_cross_user_write`.) -/
theorem updateVideoStatistics_frame (env : Env) (u : String) (st : Store) :
    (updateVideoStatistics env (some u) st).1.channels = st.channels ∧
    (updateVideoStatistics env (some u) st).1.comments = st.comments ∧
    (updateVideoStatistics env (some u) st).1.nextId = st.nextId ∧
    (updateVideoStatistics env (some u) st).1.videos.length =
      st.videos.length ∧
    ∀ (i : Nat) r0, st.videos[i]? = some r0 →
      ∃ r1, (updateVideoStatistics env (some u) st).1.videos[i]? = some r1 ∧
        frameFields r1 = frameFields r0 ∧
        ((∀ w ∈ st.videos, w.userId = u → w.videoId ≠ r0.videoId) →
          r1 = r0) := by
  have h := refreshVideos_frame env
    (st.videos.filter (fun r => r.userId == u)) st
  refine ⟨h.1, h.2.1, h.2.2.1, h.2.2.2.1, ?_⟩
  intro i r0 h0
  obtain ⟨r1, h1, hf, hu⟩ := h.2.2.2.2 i r0 h0
  refine ⟨r1, h1, hf, fun hw => hu ?_⟩
  intro w hwmem
  have := List.mem_filter.mp hwmem
  exact hw w this.1 (by simpa using this.2)

/-- A statistics object with a missing dislike counter. -/
def statsFull : Stats :=
  { viewCount := some 7,
    likeCount := some 5,
    dislikeCount := none,
    commentCount := some 2 }

/-- A details item for upstream video "v1". -/
def itemV1 : RawItem :=
  { id := "v1",
    snippet := sampleSnippet,
    statistics := some statsFull }

/-- An environment whose single-item detail fetch finds "v1". -/
def envCross : Env :=
  { search := fun _ => none,
    listPages := fun _ => [],
    detailsResp := fun _ => some [itemV1],
    commentPages := fun _ => [],
    now := 1 }

/-- User u1's stored row for upstream video "v1". -/
def rowA : VideoRow :=
  { id := 10,
    videoId := "v1",
    title := "t",
    description := "d",
    publishedAt := 0,
    thumbnailUrl := "u",
    channelId := "c",
    channelTitle := "ct",
    userId := "u1",
    viewCount := 0,
    likeCount := 0,
    dislikeCount := 0,
    commentCount := 0,
    createdAt := 0,
    updatedAt := 0 }

/-- User u2's own stored row for the same upstream video "v1". -/
def rowB : VideoRow :=
  { rowA with id := 11, userId := "u2" }

/-- A store holding both users' rows for upstream video "v1". -/
def storeCross : Store :=
  { channels := [],
    videos := [rowA, rowB],
    comments := [],
    nextId := 12 }

/-- Counterexample to C1 as stated: running the statistics refresher as user
"u1" rewrites user "u2"'s row for the same upstream video identifier (its
counters and `updatedAt` change), because the update predicate is
`eq(Videos.videoId, ...)` with no owning-user conjunct. -/
theorem updateVideoStatistics_cross_user_write :
    rowA.userId = "u1" ∧ rowB.userId = "u2" ∧ rowB.videoId = rowA.videoId ∧
    storeCross.videos[1]? = some rowB ∧
    (updateVideoStatistics envCross (some "u1") storeCross).1.videos[1]? ≠
      some rowB := by decide

/-- Witness for C1 (amended): in the cross-user store, row 0 keeps all its
non-counter fields after a refresh by "u1". -/
theorem updateVideoStatistics_frame_witness :
    ∃ r1,
      (updateVideoStatistics envCross (some "u1") storeCross).1.videos[0]? =
        some r1 ∧ frameFields r1 = frameFields rowA := by
  obtain ⟨r1, h1, hf, _⟩ :=
    (updateVideoStatistics_frame envCross "u1" storeCross).2.2.2.2 0 rowA rfl
  exact ⟨r1, h1, hf⟩

lemma refreshVideos_skip (env : Env) (x : String) (vs : List VideoRow) :
    ∀ st : Store,
    (∀ w ∈ vs, w.videoId = x →
      (fetchVideoDetails [w.videoId] (env.detailsResp [w.videoId])).head? =
        none) →
    ∀ (i : Nat) r0, st.videos[i]? = some r0 → r0.videoId = x →
      (refreshVideos env vs st).1.videos[i]? = some r0 := by
  induction vs with
  | nil => intro st _ i r0 h0 _; simpa [refreshVideos] using h0
  | cons w rest ih =>
    intro st hvs i r0 h0 hx
    cases hh : (fetchVideoDetails [w.videoId]
        (env.detailsResp [w.videoId])).head? with
    | none =>
      have hstep : refreshVideo env w st = (st, none) := by
        simp [refreshVideo, hh]
      simp only [refreshVideos, hstep]
      exact ih st (fun q hq => hvs q (by simp [hq])) i r0 h0 hx
    | some item =>
      have hwx : w.videoId ≠ x := by
        intro h
        rw [hvs w (by simp) h] at hh
        exact Option.noConfusion hh
      cases hs : item.statistics with
      | none =>
        have hstep : refreshVideo env w st =
            (st, some "TypeError: statistics is undefined") := by
          simp [refreshVideo, hh, hs]
        simp only [refreshVideos, hstep]
        exact h0
      | some s =>
        have hstep : refreshVideo env w st =
            ({ st with
               videos := st.videos.map (fun r =>
                 if r.videoId = w.videoId then
                   { r with
                     viewCount := s.viewCount.getD 0,
                     likeCount := s.likeCount.getD 0,
                     dislikeCount := s.dislikeCount.getD 0,
                     commentCount := s.commentCount.getD 0,
                     updatedAt := env.now }
                 else r) }, none) := by
          simp [refreshVideo, hh, hs]
        simp only [refreshVideos, hstep]
        apply ih _ (fun q hq => hvs q (by simp [hq])) i r0 _ hx
        have hne : ¬ r0.videoId = w.videoId := by
          rw [hx]; exact fun h => hwx h.symm
        simp [List.getElem?_map, h0, hne]
  
lemma refreshVideos_noerr (env : Env) (vs : List VideoRow) :
    ∀ st : Store,
    (∀ w ∈ vs,
      ∀ item ∈ fetchVideoDetails [w.videoId] (env.detailsResp [w.videoId]),
        item.statistics.isSome) →
    (refreshVideos env vs st).2 = none := by
  induction vs with
  | nil => intro st _; simp [refreshVideos]
  | cons w rest ih =>
    intro st hok
    cases hh : (fetchVideoDetails [w.videoId]
        (env.detailsResp [w.videoId])).head? with
    | none =>
      have hstep : refreshVideo env w st = (st, none) := by
        simp [refreshVideo, hh]
      simp only [refreshVideos, hstep]
      exact ih st (fun q hq => hok q (by simp [hq]))
    | some item =>
      have hmem : item ∈ fetchVideoDetails [w.videoId]
          (env.detailsResp [w.videoId]) := by
        cases hl : fetchVideoDetails [w.videoId] (env.detailsResp [w.videoId])
        · rw [hl] at hh; exact Option.noConfusion hh
        · rw [hl] at hh
          simp only [List.head?] at hh
          injection hh with h2
          subst h2
          simp
      obtain ⟨s, hs⟩ := Option.isSome_iff_exists.mp (hok w (by simp) item hmem)
      have hstep2 : (refreshVideo env w st).2 = none := by
        simp [refreshVideo, hh, hs]
      cases he : (refreshVideo env w st).2 with
      | some e => rw [he] at hstep2; exact Option.noConfusion hstep2
      | none =>
        simp only [refreshVideos, he]
        exact ih _ (fun q hq => hok q (by simp [hq]))

/-- Claim C10: when a stored video's upstream identifier yields no detail
record (failed or empty single-item fetch), the refresher leaves every row
carrying that upstream identifier completely unchanged at its position (the
row is not removed), and — provided every detail record that is found for
the user's videos carries a statistics object — no exception surfaces to the
caller, processing having continued over the remaining videos. -/
theorem updateVideoStatistics_missing_video_skipped (env : Env) (u : String)
    (st : Store) (v : VideoRow) (hv : v ∈ st.videos) (hu : v.userId = u)
    (hmiss : (fetchVideoDetails [v.videoId]
      (env.detailsResp [v.videoId])).head? = none) :
    (updateVideoStatistics env (some u) st).1.videos.length =
      st.videos.length ∧
    (∀ (i : Nat) r0, st.videos[i]? = some r0 → r0.videoId = v.videoId →
      (updateVideoStatistics env (some u) st).1.videos[i]? = some r0) ∧
    ((∀ w ∈ st.videos, w.userId = u →
        ∀ item ∈ fetchVideoDetails [w.videoId] (env.detailsResp [w.videoId]),
          item.statistics.isSome) →
      (updateVideoStatistics env (some u) st).2 = none) := by
  refine ⟨(refreshVideos_frame env _ st).2.2.2.1, ?_, ?_⟩
  · intro i r0 h0 hx
    apply refreshVideos_skip env v.videoId _ st _ i r0 h0 hx
    intro w hw hwx
    rw [hwx]
    exact hmiss
  · intro hall
    apply refreshVideos_noerr
    intro w hw
    have hmem := List.mem_filter.mp hw
    exact hall w hmem.1 (by simpa using hmem.2)

/-- An environment whose detail calls always fail, at time 9. -/
def envGone : Env :=
  { search := fun _ => none,
    listPages := fun _ => [],
    detailsResp := fun _ => none,
    commentPages := fun _ => [],
    now := 9 }

/-- A store holding only user u1's row `rowA`. -/
def storeA : Store :=
  { channels := [],
    videos := [rowA],
    comments := [],
    nextId := 12 }

/-- Witness for C10: when the upstream no longer resolves "v1", user u1's
row survives unchanged and the call reports no error. -/
theorem updateVideoStatistics_missing_video_skipped_witness :
    (updateVideoStatistics envGone (some "u1") storeA).1.videos[0]? =
      some rowA ∧
    (updateVideoStatistics envGone (some "u1") storeA).2 = none := by
  have h := updateVideoStatistics_missing_video_skipped envGone "u1" storeA
    rowA (by simp [storeA]) rfl rfl
  exact ⟨h.2.1 0 rowA rfl rfl, h.2.2 (by simp [storeA, envGone, fetchVideoDetails])⟩

/-- A details item for "v1" whose statistics object is absent entirely. -/
def itemNoStats : RawItem :=
  { id := "v1",
    snippet := sampleSnippet,
    statistics := none }

/-- User u1's channel, already resolved to upstream id "UCX". -/
def chanU1 : ChannelRow :=
  { id := 1,
    name := "Acme",
    channelId := some "UCX",
    userId := "u1",
    updatedAt := 0 }

/-- A store holding only `chanU1`. -/
def storeChanOnly : Store :=
  { channels := [chanU1],
    videos := [],
    comments := [],
    nextId := 0 }

/-- An upstream catalog serving one video "v1" whose payload has no
statistics object. -/
def envNoStats : Env :=
  { search := fun _ => none,
    listPages := fun _ => [some (["v1"], false)],
    detailsResp := fun _ => some [itemNoStats],
    commentPages := fun _ => [],
    now := 0 }

/-- Counterexample to C5 as stated: on a payload whose statistics *object*
is absent, the ingestion pipeline crashes (the JavaScript
`video.statistics.viewCount` access throws) and no Video row is created,
instead of storing zeroed counters. -/
theorem scrapeVideos_missing_statistics_crash :
    (scrapeVideos envNoStats (some "u1") storeChanOnly).err =
      some "TypeError: statistics is undefined" ∧
    (scrapeVideos envNoStats (some "u1") storeChanOnly).store.videos =
      [] := by decide

/-- Claim C5 (amended): when the statistics object is present but any of its
individual counter fields are absent, ingestion of a not-yet-stored video
does not crash and stores `getD 0` of each absent counter — i.e. 0 — in the
created row (an absent statistics *object*, by contrast, crashes the run:
`scrapeVideos_missing_statistics_crash`). -/
theorem processVideo_counters_default_zero (env : Env) (u cid : String)
    (v : YouTubeVideo) (st : Store) (s : Stats) (thumb : String)
    (hs : v.statistics = some s)
    (hth : getBestThumbnail v.snippet.thumbnails = some thumb)
    (hnew : st.videos.find?
      (fun r => r.videoId == v.videoId && r.userId == u) = none) :
    (processVideo env u cid v st).err = none ∧
    (processVideo env u cid v st).newVideos =
      [{ id := st.nextId,
         videoId := v.videoId,
         title := v.snippet.title,
         description := v.snippet.description,
         publishedAt := v.snippet.publishedAt,
         thumbnailUrl := thumb,
         channelId := cid,
         channelTitle := v.snippet.channelTitle,
         userId := u,
         viewCount := s.viewCount.getD 0,
         likeCount := s.likeCount.getD 0,
         dislikeCount := s.dislikeCount.getD 0,
         commentCount := s.commentCount.getD 0,
         createdAt := env.now,
         updatedAt := env.now }] := by
  constructor <;> simp [processVideo, hnew, hth, hs]

/-- The video "v1" as the orchestrator sees it, with a missing dislike
counter in otherwise-present statistics. -/
def videoV1 : YouTubeVideo :=
  { videoId := "v1",
    snippet := sampleSnippet,
    statistics := some statsFull }

/-- Witness for C5 (amended): ingesting `videoV1` (whose `dislikeCount`
field is absent) succeeds and stores 0 for the absent counter. -/
theorem processVideo_counters_default_zero_witness :
    (processVideo envNoStats "u1" "UCX" videoV1 storeChanOnly).err = none ∧
    (processVideo envNoStats "u1" "UCX" videoV1
        storeChanOnly).newVideos.map (fun r => r.dislikeCount) = [0] ∧
    (processVideo envNoStats "u1" "UCX" videoV1
        storeChanOnly).newVideos.map (fun r => r.viewCount) = [7] := by
  have h := processVideo_counters_default_zero envNoStats "u1" "UCX" videoV1
    storeChanOnly statsFull "urlD" rfl rfl rfl
  exact ⟨h.1, by rw [h.2]; rfl, by rw [h.2]; rfl⟩

lemma processVideo_calls (env : Env) (u cid : String) (v : YouTubeVideo)
    (st : Store) :
    (processVideo env u cid v st).calls = [ApiCall.commentThreads v.videoId] ∨
    (processVideo env u cid v st).calls = [] := by
  cases hf : st.videos.find? (fun r => r.videoId == v.videoId && r.userId == u)
  case some ex => left; simp [processVideo, hf]
  case none =>
    cases hth : getBestThumbnail v.snippet.thumbnails
    case none => right; simp [processVideo, hf, hth]
    case some thumb =>
      cases hs : v.statistics
      case none => right; simp [processVideo, hf, hth, hs]
      case some s => left; simp [processVideo, hf, hth, hs]

lemma processVideos_no_search (env : Env) (u cid : String)
    (vs : List YouTubeVideo) :
    ∀ (st : Store) (name : String),
    ApiCall.searchChannel name ∉ (processVideos env u cid vs st).calls := by
  induction vs with
  | nil => intro st name h; simp [processVideos] at h
  | cons v rest ih =>
    intro st name h
    simp only [processVideos] at h
    rcases he : (processVideo env u cid v st).err with _ | e <;> rw [he] at h
    · simp only [List.mem_append] at h
      rcases h with h | h
      · rcases processVideo_calls env u cid v st with hc | hc <;>
          rw [hc] at h <;> simp at h
      · exact ih _ name h
    · rcases processVideo_calls env u cid v st with hc | hc <;>
        rw [hc] at h <;> simp at h

lemma processChannel_search (env : Env) (u : String) (ch : ChannelRow)
    (st : Store) (name : String)
    (h : ApiCall.searchChannel name ∈ (processChannel env u ch st).calls) :
    ch.channelId = none ∧ name = ch.name := by
  cases hc : ch.channelId with
  | some cid =>
    rw [processChannel] at h
    rw [hc] at h
    simp only [processResolved, List.mem_cons] at h
    rcases h with h | h | h
    · exact absurd h (by simp)
    · exact absurd h (by simp)
    · exact absurd h (processVideos_no_search env u cid _ st name)
  | none =>
    refine ⟨rfl, ?_⟩
    rw [processChannel] at h
    rw [hc] at h
    cases hg : getChannelId env ch.name with
    | none =>
      rw [hg] at h
      simp at h
      exact h
    | some cid =>
      rw [hg] at h
      simp only [List.mem_cons] at h
      rcases h with h | h
      · injection h
      · simp only [processResolved, List.mem_cons] at h
        rcases h with h | h | h
        · exact absurd h (by simp)
        · exact absurd h (by simp)
        · exact absurd h (processVideos_no_search env u cid _ _ name)

lemma processChannels_search (env : Env) (u : String) (chs : List ChannelRow) :
    ∀ (st : Store) (name : String),
    ApiCall.searchChannel name ∈ (processChannels env u chs st).calls →
    ∃ c ∈ chs, c.channelId = none ∧ c.name = name := by
  induction chs with
  | nil => intro st name h; simp [processChannels] at h
  | cons ch rest ih =>
    intro st name h
    simp only [processChannels] at h
    rcases he : (processChannel env u ch st).err with _ | e <;> rw [he] at h
    · simp only [List.mem_append] at h
      rcases h with h | h
      · obtain ⟨h1, h2⟩ := processChannel_search env u ch st name h
        exact ⟨ch, by simp, h1, h2.symm⟩
      · obtain ⟨c, hc, h1, h2⟩ := ih _ name h
        exact ⟨c, by simp [hc], h1, h2⟩
    · obtain ⟨h1, h2⟩ := processChannel_search env u ch st name h
      exact ⟨ch, by simp, h1, h2.symm⟩

/-- Claim C8: every channel-search call a `scrapeVideos` run issues is for a
channel of the authenticated user whose upstream channel identifier was
still unset in the store at the start of the run; hence a channel whose
identifier is already persisted never triggers a search. -/
theorem scrapeVideos_search_only_unresolved (env : Env) (u : String)
    (st : Store) (name : String)
    (h : ApiCall.searchChannel name ∈ (scrapeVideos env (some u) st).calls) :
    ∃ c ∈ st.channels, c.userId = u ∧ c.channelId = none ∧ c.name = name := by
  rw [scrapeVideos] at h
  by_cases hemp : (st.channels.filter (fun c => c.userId == u)).isEmpty
  · rw [if_pos hemp] at h
    simp at h
  · rw [if_neg hemp] at h
    obtain ⟨c, hc, h1, h2⟩ := processChannels_search env u _ st name h
    have hm := List.mem_filter.mp hc
    exact ⟨c, hm.1, by simpa using hm.2, h1, h2⟩

/-- A store holding one unresolved channel of user u1 next to a resolved
one. -/
def storeMixed : Store :=
  { channels := [chanU1, chanU2 ],
    videos := [],
    comments := [],
    nextId := 2 }

/-- An environment whose channel search always fails. -/
def envSearchFail : Env :=
  { search := fun _ => none,
    listPages := fun _ => [],
    detailsResp := fun _ => some [],
    commentPages := fun _ => [],
    now := 0 }

/-- Witness for C8: in a run by u2 over `storeMixed`, a search call for
"Acme" is issued, and the theorem locates the unresolved u2 channel behind
it. -/
theorem scrapeVideos_search_only_unresolved_witness :
    ∃ c ∈ storeMixed.channels,
      c.userId = "u2" ∧ c.channelId = none ∧ c.name = "Acme" := by
  apply scrapeVideos_search_only_unresolved envSearchFail "u2" storeMixed
    "Acme"
  decide

/-- The dedup check of `scrapeVideos`: is a row with this (upstream video
id, owning user id) pair present? -/
def dedupHit (st : Store) (u x : String) : Bool :=
  (st.videos.find? (fun r => r.videoId == x && r.userId == u)).isSome

/-- The effect of one run's channel resolution on a channel row: an
unresolved row whose name the upstream search resolves gets the found id
persisted; any other row is unchanged. -/
def resolveRow (env : Env) (ch : ChannelRow) : ChannelRow :=
  match ch.channelId with
  | some _ => ch
  | none =>
    match env.search ch.name with
    | some cid => { ch with channelId := some cid, updatedAt := env.now }
    | none => ch

/-- The error a fresh insert of video `v` raises, if any: it depends only on
the video's own payload. -/
def videoErr (v : YouTubeVideo) : Option String :=
  match getBestThumbnail v.snippet.thumbnails with
  | none => some "TypeError: thumbnails default is undefined"
  | some _ =>
    match v.statistics with
    | none => some "TypeError: statistics is undefined"
    | some _ => none

lemma insertComments_facts (u : String) (rowId : Nat)
    (cs : List YouTubeComment) :
    ∀ st : Store,
    (insertComments u rowId cs st).videos = st.videos ∧
    (insertComments u rowId cs st).channels = st.channels ∧
    (insertComments u rowId cs st).comments.length =
      st.comments.length + cs.length := by
  induction cs with
  | nil => intro st; simp [insertComments]
  | cons c rest ih =>
    intro st
    simp only [insertComments]
    refine ⟨(ih _).1.trans (by simp), (ih _).2.1.trans (by simp), ?_⟩
    rw [(ih _).2.2]
    simp only [List.length_append, List.length_cons, List.length_nil]
    omega

lemma processVideo_facts (env : Env) (u cid : String) (v : YouTubeVideo)
    (st : Store) :
    (processVideo env u cid v st).store.channels = st.channels ∧
    (processVideo env u cid v st).store.videos =
      st.videos ++ (processVideo env u cid v st).newVideos ∧
    ((processVideo env u cid v st).err = none →
      (processVideo env u cid v st).store.comments.length =
        st.comments.length +
          (fetchVideoComments (env.commentPages v.videoId)).length) ∧
    ((processVideo env u cid v st).err ≠ none →
      (processVideo env u cid v st).store = st ∧
      (processVideo env u cid v st).newVideos = []) := by
  cases hf : st.videos.find? (fun r => r.videoId == v.videoId && r.userId == u)
  case some ex =>
    have hi := insertComments_facts u ex.id
      (fetchVideoComments (env.commentPages v.videoId)) st
    refine ⟨?_, ?_, fun _ => ?_, fun hne => absurd ?_ hne⟩
    · simp [processVideo, hf, hi.2.1]
    · simp [processVideo, hf, hi.1]
    · simp [processVideo, hf, hi.2.2]
    · simp [processVideo, hf]
  case none =>
    cases hth : getBestThumbnail v.snippet.thumbnails
    case none =>
      refine ⟨?_, ?_, fun habs => ?_, fun _ => ?_⟩
      · simp [processVideo, hf, hth]
      · simp [processVideo, hf, hth]
      · simp [processVideo, hf, hth] at habs
      · simp [processVideo, hf, hth]
    case some thumb =>
      cases hs : v.statistics
      case none =>
        refine ⟨?_, ?_, fun habs => ?_, fun _ => ?_⟩
        · simp [processVideo, hf, hth, hs]
        · simp [processVideo, hf, hth, hs]
        · simp [processVideo, hf, hth, hs] at habs
        · simp [processVideo, hf, hth, hs]
      case some s =>
        have hi := insertComments_facts u st.nextId
          (fetchVideoComments (env.commentPages v.videoId))
        refine ⟨?_, ?_, fun _ => ?_, fun hne => absurd ?_ hne⟩
        · simp only [processVideo, hf, hth, hs]
          rw [(hi _).2.1]
        · simp only [processVideo, hf, hth, hs]
          rw [(hi _).1]
        · simp only [processVideo, hf, hth, hs]
          rw [(hi _).2.2]
        · simp [processVideo, hf, hth, hs]

lemma processVideo_hit (env : Env) (u cid : String) (v : YouTubeVideo)
    (st : Store) (h : dedupHit st u v.videoId = true) :
    (processVideo env u cid v st).err = none ∧
    (processVideo env u cid v st).newVideos = [] ∧
    (processVideo env u cid v st).store.videos = st.videos ∧
    (processVideo env u cid v st).store.channels = st.channels ∧
    (processVideo env u cid v st).store.comments.length =
      st.comments.length +
        (fetchVideoComments (env.commentPages v.videoId)).length := by
  unfold dedupHit at h
  obtain ⟨ex, hex⟩ := Option.isSome_iff_exists.mp h
  have hi := insertComments_facts u ex.id
    (fetchVideoComments (env.commentPages v.videoId)) st
  refine ⟨?_, ?_, ?_, ?_, ?_⟩ <;>
    simp [processVideo, hex, hi.1, hi.2.1, hi.2.2]

lemma processVideo_miss_err (env : Env) (u cid : String) (v : YouTubeVideo)
    (st : Store) (h : dedupHit st u v.videoId = false) :
    (processVideo env u cid v st).err = videoErr v := by
  unfold dedupHit at h
  have hf : st.videos.find? (fun r => r.videoId == v.videoId && r.userId == u)
      = none := by
    cases hc : st.videos.find?
        (fun r => r.videoId == v.videoId && r.userId == u)
    · rfl
    · rw [hc] at h; exact absurd h (by simp)
  cases hth : getBestThumbnail v.snippet.thumbnails
  case none => simp [processVideo, hf, hth, videoErr]
  case some thumb =>
    cases hs : v.statistics
    case none => simp [processVideo, hf, hth, hs, videoErr]
    case some s => simp [processVideo, hf, hth, hs, videoErr]

lemma dedupHit_congr {st1 st2 : Store} (h : st1.videos = st2.videos)
    (u x : String) : dedupHit st1 u x = dedupHit st2 u x := by
  simp [dedupHit, h]

lemma dedupHit_append {st st' : Store} {Δ : List VideoRow}
    (h : st'.videos = st.videos ++ Δ) {u x : String}
    (hx : dedupHit st u x = true) : dedupHit st' u x = true := by
  simp only [dedupHit, List.find?_isSome] at hx ⊢
  obtain ⟨r, hr, hp⟩ := hx
  exact ⟨r, by simp [h, hr], hp⟩

lemma processVideo_ok_hit_after (env : Env) (u cid : String)
    (v : YouTubeVideo) (st : Store)
    (h : (processVideo env u cid v st).err = none) :
    dedupHit (processVideo env u cid v st).store u v.videoId = true := by
  cases hd : dedupHit st u v.videoId
  case true =>
    rw [dedupHit_congr (processVideo_hit env u cid v st hd).2.2.1]
    exact hd
  case false =>
    have herr := (processVideo_miss_err env u cid v st hd).symm.trans h
    unfold dedupHit at hd
    have hf : st.videos.find?
        (fun r => r.videoId == v.videoId && r.userId == u) = none := by
      cases hc : st.videos.find?
          (fun r => r.videoId == v.videoId && r.userId == u)
      · rfl
      · rw [hc] at hd; exact absurd hd (by simp)
    cases hth : getBestThumbnail v.snippet.thumbnails
    case none => simp [videoErr, hth] at herr
    case some thumb =>
      cases hs : v.statistics
      case none => simp [videoErr, hth, hs] at herr
      case some s =>
        have hins := insertComments_facts u st.nextId
          (fetchVideoComments (env.commentPages v.videoId))
        simp only [processVideo, hf, hth, hs, dedupHit]
        rw [(hins _).1]
        simp [List.find?_append, hf]

lemma processVideos_facts (env : Env) (u cid : String)
    (vs : List YouTubeVideo) :
    ∀ st : Store,
    (processVideos env u cid vs st).store.channels = st.channels ∧
    (processVideos env u cid vs st).store.videos =
      st.videos ++ (processVideos env u cid vs st).newVideos := by
  induction vs with
  | nil => intro st; simp [processVideos]
  | cons v rest ih =>
    intro st
    have hv := processVideo_facts env u cid v st
    cases he : (processVideo env u cid v st).err
    case some e =>
      simp only [processVideos, he]
      exact ⟨hv.1, hv.2.1⟩
    case none =>
      simp only [processVideos, he]
      have hrest := ih (processVideo env u cid v st).store
      refine ⟨hrest.1.trans hv.1, ?_⟩
      calc (processVideos env u cid rest
              (processVideo env u cid v st).store).store.videos
          = (processVideo env u cid v st).store.videos ++
              (processVideos env u cid rest
                (processVideo env u cid v st).store).newVideos := hrest.2
        _ = (st.videos ++ (processVideo env u cid v st).newVideos) ++
              (processVideos env u cid rest
                (processVideo env u cid v st).store).newVideos := by
            rw [hv.2.1]
        _ = st.videos ++ ((processVideo env u cid v st).newVideos ++
              (processVideos env u cid rest
                (processVideo env u cid v st).store).newVideos) := by
            rw [List.append_assoc]

lemma simVideos (env : Env) (u cid : String) (vs : List YouTubeVideo) :
    ∀ T S : Store,
    (∀ x, dedupHit (processVideos env u cid vs T).store u x = true →
      dedupHit S u x = true) →
    ((processVideos env u cid vs T).err ≠ none →
      S.videos = (processVideos env u cid vs T).store.videos) →
    (processVideos env u cid vs S).err = (processVideos env u cid vs T).err ∧
    (processVideos env u cid vs S).store.videos = S.videos ∧
    (processVideos env u cid vs S).newVideos = [] ∧
    (processVideos env u cid vs S).store.channels = S.channels ∧
    (processVideos env u cid vs S).store.comments.length +
        T.comments.length =
      (processVideos env u cid vs T).store.comments.length +
        S.comments.length := by
  induction vs with
  | nil =>
    intro T S _ _
    exact ⟨rfl, rfl, rfl, rfl, Nat.add_comm _ _⟩
  | cons v rest ih =>
    intro T S H1 H2
    cases heT : (processVideo env u cid v T).err
    case none =>
      have hhit : dedupHit S u v.videoId = true := by
        apply H1
        have h1 : dedupHit (processVideo env u cid v T).store u v.videoId =
            true := processVideo_ok_hit_after env u cid v T heT
        have hmono := (processVideos_facts env u cid rest
          (processVideo env u cid v T).store).2
        simp only [processVideos, heT]
        exact dedupHit_append hmono h1
      have hS := processVideo_hit env u cid v S hhit
      have hT1 := processVideo_facts env u cid v T
      have H1i : ∀ x, dedupHit (processVideos env u cid rest
          (processVideo env u cid v T).store).store u x = true →
          dedupHit (processVideo env u cid v S).store u x = true := by
        intro x hx
        rw [dedupHit_congr hS.2.2.1]
        apply H1
        simp only [processVideos, heT]
        exact hx
      have H2i : (processVideos env u cid rest
          (processVideo env u cid v T).store).err ≠ none →
          (processVideo env u cid v S).store.videos =
            (processVideos env u cid rest
              (processVideo env u cid v T).store).store.videos := by
        intro hne
        have hh := H2 (by simp only [processVideos, heT]; exact hne)
        simp only [processVideos, heT] at hh
        rw [hS.2.2.1, hh]
      have ihh := ih (processVideo env u cid v T).store
        (processVideo env u cid v S).store H1i H2i
      simp only [processVideos, heT, hS.1]
      refine ⟨ihh.1, ihh.2.1.trans hS.2.2.1, ?_, ?_, ?_⟩
      · rw [hS.2.1, ihh.2.2.1]; rfl
      · exact ihh.2.2.2.1.trans hS.2.2.2.1
      · have hc1 := ihh.2.2.2.2
        have hc2 := hS.2.2.2.2
        have hc3 := hT1.2.2.1 heT
        omega
    case some e =>
      have hdT : dedupHit T u v.videoId = false := by
        cases hdT0 : dedupHit T u v.videoId
        · rfl
        · exact absurd heT
            (by rw [(processVideo_hit env u cid v T hdT0).1]; simp)
      have hTfacts := (processVideo_facts env u cid v T).2.2.2
        (by rw [heT]; simp)
      have hSv : S.videos = T.videos := by
        have hh := H2 (by simp only [processVideos, heT]; simp)
        simp only [processVideos, heT] at hh
        rw [hh, hTfacts.1]
      have hdS : dedupHit S u v.videoId = false := by
        rw [dedupHit_congr hSv]
        exact hdT
      have hSerr : (processVideo env u cid v S).err = some e := by
        rw [processVideo_miss_err env u cid v S hdS,
          ← processVideo_miss_err env u cid v T hdT, heT]
      have hSfacts := (processVideo_facts env u cid v S).2.2.2
        (by rw [hSerr]; simp)
      simp only [processVideos, heT, hSerr]
      refine ⟨trivial, ?_, hSfacts.2, ?_, ?_⟩
      · rw [hSfacts.1]
      · rw [hSfacts.1]
      · rw [hSfacts.1, hTfacts.1]
        exact Nat.add_comm _ _

lemma resolveRow_id (env : Env) (ch : ChannelRow) :
    (resolveRow env ch).id = ch.id := by
  cases hc : ch.channelId
  case some cid => simp [resolveRow, hc]
  case none =>
    cases hg : env.search ch.name
    case none => simp [resolveRow, hc, hg]
    case some cid => simp [resolveRow, hc, hg]

lemma processChannel_videos (env : Env) (u : String) (ch : ChannelRow)
    (st : Store) :
    (processChannel env u ch st).store.videos =
      st.videos ++ (processChannel env u ch st).newVideos := by
  cases hc : ch.channelId
  case some cid =>
    simp only [processChannel, hc, processResolved]
    exact (processVideos_facts env u cid _ st).2
  case none =>
    cases hg : getChannelId env ch.name
    case none => simp [processChannel, hc, hg]
    case some cid =>
      simp only [processChannel, hc, hg, processResolved]
      exact (processVideos_facts env u cid _ _).2

lemma processChannels_videos (env : Env) (u : String) (chs : List ChannelRow) :
    ∀ st : Store,
    (processChannels env u chs st).store.videos =
      st.videos ++ (processChannels env u chs st).newVideos := by
  induction chs with
  | nil => intro st; simp [processChannels]
  | cons ch rest ih =>
    intro st
    cases he : (processChannel env u ch st).err
    case some e =>
      simp only [processChannels, he]
      exact processChannel_videos env u ch st
    case none =>
      simp only [processChannels, he]
      have hrest := ih (processChannel env u ch st).store
      calc (processChannels env u rest
              (processChannel env u ch st).store).store.videos
          = (processChannel env u ch st).store.videos ++
              (processChannels env u rest
                (processChannel env u ch st).store).newVideos := hrest
        _ = (st.videos ++ (processChannel env u ch st).newVideos) ++
              (processChannels env u rest
                (processChannel env u ch st).store).newVideos := by
            rw [processChannel_videos env u ch st]
        _ = st.videos ++ ((processChannel env u ch st).newVideos ++
              (processChannels env u rest
                (processChannel env u ch st).store).newVideos) := by
            rw [List.append_assoc]

lemma simChannel (env : Env) (u : String) (ch : ChannelRow) (T S : Store)
    (H1 : ∀ x, dedupHit (processChannel env u ch T).store u x = true →
      dedupHit S u x = true)
    (H2 : (processChannel env u ch T).err ≠ none →
      S.videos = (processChannel env u ch T).store.videos) :
    (processChannel env u (resolveRow env ch) S).err =
      (processChannel env u ch T).err ∧
    (processChannel env u (resolveRow env ch) S).store.videos = S.videos ∧
    (processChannel env u (resolveRow env ch) S).newVideos = [] ∧
    (processChannel env u (resolveRow env ch) S).store.comments.length +
        T.comments.length =
      (processChannel env u ch T).store.comments.length +
        S.comments.length := by
  cases hc : ch.channelId
  case some cid =>
    have hres : resolveRow env ch = ch := by simp [resolveRow, hc]
    rw [hres]
    simp only [processChannel, hc, processResolved] at H1 H2 ⊢
    have hs := simVideos env u cid _ T S H1 H2
    exact ⟨hs.1, hs.2.1, hs.2.2.1, hs.2.2.2.2⟩
  case none =>
    cases hg : getChannelId env ch.name
    case none =>
      have hg' : env.search ch.name = none := hg
      have hres : resolveRow env ch = ch := by simp [resolveRow, hc, hg']
      rw [hres]
      simp only [processChannel, hc, hg]
      exact ⟨trivial, trivial, trivial, Nat.add_comm _ _⟩
    case some cid =>
      have hg' : env.search ch.name = some cid := hg
      have hres : resolveRow env ch =
          { ch with channelId := some cid, updatedAt := env.now } := by
        simp [resolveRow, hc, hg']
      rw [hres]
      simp only [processChannel, hc, hg, processResolved] at H1 H2 ⊢
      have hs := simVideos env u cid _
        { T with
          channels := T.channels.map (fun c =>
            if c.id = ch.id ∧ c.userId = u then
              { c with channelId := some cid, updatedAt := env.now }
            else c) } S H1 H2
      exact ⟨hs.1, hs.2.1, hs.2.2.1, hs.2.2.2.2⟩

lemma processChannel_channels_shape (env : Env) (u : String)
    (ch : ChannelRow) (T : Store) (done rest : List ChannelRow)
    (hfa : T.channels.filter (fun c => c.userId == u) = done ++ ch :: rest)
    (hNd : ((done ++ ch :: rest).map (fun c => c.id)).Nodup) :
    (processChannel env u ch T).store.channels.filter
        (fun c => c.userId == u) = done ++ resolveRow env ch :: rest := by
  cases hc : ch.channelId
  case some cid =>
    have hres : resolveRow env ch = ch := by simp [resolveRow, hc]
    have hchan : (processChannel env u ch T).store.channels = T.channels := by
      simp only [processChannel, hc, processResolved]
      exact (processVideos_facts env u cid _ T).1
    rw [hchan, hfa, hres]
  case none =>
    cases hg : getChannelId env ch.name
    case none =>
      have hg' : env.search ch.name = none := hg
      have hres : resolveRow env ch = ch := by simp [resolveRow, hc, hg']
      have hchan : (processChannel env u ch T).store.channels = T.channels := by
        simp [processChannel, hc, hg]
      rw [hchan, hfa, hres]
    case some cid =>
      have hg' : env.search ch.name = some cid := hg
      have hres : resolveRow env ch =
          { ch with channelId := some cid, updatedAt := env.now } := by
        simp [resolveRow, hc, hg']
      have hchan : (processChannel env u ch T).store.channels =
          T.channels.map (fun c =>
            if c.id = ch.id ∧ c.userId = u then
              { c with channelId := some cid, updatedAt := env.now }
            else c) := by
        simp only [processChannel, hc, hg, processResolved]
        exact (processVideos_facts env u cid _ _).1
      have hchmem : ch ∈ T.channels.filter (fun c => c.userId == u) := by
        rw [hfa]; simp
      have hchu : ch.userId = u := by
        simpa using (List.mem_filter.mp hchmem).2
      -- id disequalities from the Nodup hypothesis
      rw [List.map_append, List.map_cons] at hNd
      have hnotdone : ch.id ∉ done.map (fun c => c.id) := fun hmem =>
        (List.disjoint_of_nodup_append hNd) hmem (by simp)
      have hnotrest : ch.id ∉ rest.map (fun c => c.id) :=
        (List.nodup_cons.mp (List.Nodup.of_append_right hNd)).1
      rw [hchan, List.filter_map]
      rw [List.filter_congr (q := fun c => c.userId == u)
        (fun c _ => by
          by_cases hcc : c.id = ch.id ∧ c.userId = u <;> simp [hcc])]
      rw [hfa, List.map_append, List.map_cons]
      congr 1
      · -- the done prefix is untouched
        conv_rhs => rw [← List.map_id done]
        apply List.map_congr_left
        intro c hcmem
        have hne : ¬ (c.id = ch.id ∧ c.userId = u) := fun hcc =>
          hnotdone (hcc.1 ▸ List.mem_map_of_mem _ hcmem)
        simp [hne]
      · congr 1
        · -- the channel row itself is resolved
          rw [hres]
          simp [hchu]
        · -- the rest suffix is untouched
          conv_rhs => rw [← List.map_id rest]
          apply List.map_congr_left
          intro c hcmem
          have hne : ¬ (c.id = ch.id ∧ c.userId = u) := fun hcc =>
            hnotrest (hcc.1 ▸ List.mem_map_of_mem _ hcmem)
          simp [hne]

lemma simChannels (env : Env) (u : String) (chs : List ChannelRow) :
    ∀ (done : List ChannelRow) (T : Store),
    T.channels.filter (fun c => c.userId == u) = done ++ chs →
    ((done ++ chs).map (fun c => c.id)).Nodup →
    ∃ chs2 : List ChannelRow,
      chs2.length = chs.length ∧
      (processChannels env u chs T).store.channels.filter
        (fun c => c.userId == u) = done ++ chs2 ∧
      ∀ S : Store,
        (∀ x, dedupHit (processChannels env u chs T).store u x = true →
          dedupHit S u x = true) →
        ((processChannels env u chs T).err ≠ none →
          S.videos = (processChannels env u chs T).store.videos) →
        (processChannels env u chs2 S).err =
          (processChannels env u chs T).err ∧
        (processChannels env u chs2 S).store.videos = S.videos ∧
        (processChannels env u chs2 S).newVideos = [] ∧
        (processChannels env u chs2 S).store.comments.length +
            T.comments.length =
          (processChannels env u chs T).store.comments.length +
            S.comments.length := by
  induction chs with
  | nil =>
    intro done T hfa _
    exact ⟨[], rfl, by simpa using hfa,
      fun S _ _ => ⟨rfl, rfl, rfl, Nat.add_comm _ _⟩⟩
  | cons ch rest ihc =>
    intro done T hfa hNd
    have hshape := processChannel_channels_shape env u ch T done rest hfa hNd
    cases heT : (processChannel env u ch T).err
    case some e =>
      have hrun1 : processChannels env u (ch :: rest) T =
          processChannel env u ch T := by
        simp only [processChannels, heT]
      refine ⟨resolveRow env ch :: rest, by simp, ?_, ?_⟩
      · rw [hrun1]; exact hshape
      · intro S H1 H2
        rw [hrun1] at H1 H2
        have hsim := simChannel env u ch T S H1 H2
        have h2e : (processChannel env u (resolveRow env ch) S).err =
            some e := hsim.1.trans heT
        have hrun2 : processChannels env u (resolveRow env ch :: rest) S =
            processChannel env u (resolveRow env ch) S := by
          simp only [processChannels, h2e]
        rw [hrun2, hrun1]
        exact hsim
    case none =>
      have hrun1s : (processChannels env u (ch :: rest) T).store =
          (processChannels env u rest
            (processChannel env u ch T).store).store := by
        simp only [processChannels, heT]
      have hrun1e : (processChannels env u (ch :: rest) T).err =
          (processChannels env u rest
            (processChannel env u ch T).store).err := by
        simp only [processChannels, heT]
      have hT1fa : (processChannel env u ch T).store.channels.filter
          (fun c => c.userId == u) =
          (done ++ [resolveRow env ch]) ++ rest := by
        rw [hshape]; simp
      have hT1Nd : (((done ++ [resolveRow env ch]) ++ rest).map
          (fun c => c.id)).Nodup := by
        simpa [resolveRow_id] using hNd
      obtain ⟨rest2, hlen2, hshape2, hsim2⟩ :=
        ihc (done ++ [resolveRow env ch])
          (processChannel env u ch T).store hT1fa hT1Nd
      refine ⟨resolveRow env ch :: rest2, by simp [hlen2], ?_, ?_⟩
      · rw [hrun1s, hshape2]; simp
      · intro S H1 H2
        have hmono := processChannels_videos env u rest
          (processChannel env u ch T).store
        have H1h : ∀ x, dedupHit (processChannel env u ch T).store u x =
            true → dedupHit S u x = true := by
          intro x hx
          apply H1
          rw [hrun1s]
          exact dedupHit_append hmono hx
        have H2h : (processChannel env u ch T).err ≠ none →
            S.videos = (processChannel env u ch T).store.videos :=
          fun hne => absurd heT hne
        have hsimh := simChannel env u ch T S H1h H2h
        have hSerr : (processChannel env u (resolveRow env ch) S).err =
            none := hsimh.1.trans heT
        have hrun2s : (processChannels env u
            (resolveRow env ch :: rest2) S).store =
            (processChannels env u rest2
              (processChannel env u (resolveRow env ch) S).store).store := by
          simp only [processChannels, hSerr]
        have hrun2e : (processChannels env u
            (resolveRow env ch :: rest2) S).err =
            (processChannels env u rest2
              (processChannel env u (resolveRow env ch) S).store).err := by
          simp only [processChannels, hSerr]
        have hrun2n : (processChannels env u
            (resolveRow env ch :: rest2) S).newVideos =
            (processChannel env u (resolveRow env ch) S).newVideos ++
            (processChannels env u rest2
              (processChannel env u (resolveRow env ch) S).store).newVideos
            := by
          simp only [processChannels, hSerr]
        have H1i : ∀ x, dedupHit (processChannels env u rest
            (processChannel env u ch T).store).store u x = true →
            dedupHit (processChannel env u (resolveRow env ch) S).store u x =
              true := by
          intro x hx
          rw [dedupHit_congr hsimh.2.1]
          apply H1
          rw [hrun1s]
          exact hx
        have H2i : (processChannels env u rest
            (processChannel env u ch T).store).err ≠ none →
            (processChannel env u (resolveRow env ch) S).store.videos =
            (processChannels env u rest
              (processChannel env u ch T).store).store.videos := by
          intro hne
          have hh := H2 (by rw [hrun1e]; exact hne)
          rw [hsimh.2.1, hh, hrun1s]
        have hsim2i := hsim2
          (processChannel env u (resolveRow env ch) S).store H1i H2i
        refine ⟨?_, ?_, ?_, ?_⟩
        · rw [hrun2e, hrun1e]
          exact hsim2i.1
        · rw [hrun2s]
          exact hsim2i.2.1.trans hsimh.2.1
        · rw [hrun2n, hsimh.2.2.1, hsim2i.2.2.1]
          rfl
        · rw [hrun2s, hrun1s]
          have hc1 := hsim2i.2.2.2
          have hc2 := hsimh.2.2.2
          omega

/-- Claim C2: running `scrapeVideos` twice against a fixed upstream response
environment inserts zero additional Video rows on the second run — the
second run's returned list of new videos is empty and the Videos table is
unchanged — while the second run re-inserts a full set of Comment rows for
each listed video, so exactly as many comment rows are added again as the
first run added (the store's well-formedness invariant that the user's
channel rows have pairwise distinct generated ids is assumed). -/
theorem scrapeVideos_second_run (env : Env) (u : String) (st : Store)
    (hNd : ((st.channels.filter (fun c => c.userId == u)).map
      (fun c => c.id)).Nodup) :
    (scrapeVideos env (some u)
      (scrapeVideos env (some u) st).store).newVideos = [] ∧
    (scrapeVideos env (some u)
        (scrapeVideos env (some u) st).store).store.videos =
      (scrapeVideos env (some u) st).store.videos ∧
    (scrapeVideos env (some u)
          (scrapeVideos env (some u) st).store).store.comments.length +
        st.comments.length =
      2 * (scrapeVideos env (some u) st).store.comments.length := by
  by_cases hemp : (st.channels.filter (fun c => c.userId == u)).isEmpty
  · have hrun1 : scrapeVideos env (some u) st =
        ⟨st, [], [], some "No channels found for the user"⟩ := by
      simp only [scrapeVideos]
      rw [if_pos hemp]
    rw [hrun1]
    show (scrapeVideos env (some u) st).newVideos = [] ∧
      (scrapeVideos env (some u) st).store.videos = st.videos ∧
      (scrapeVideos env (some u) st).store.comments.length +
        st.comments.length = 2 * st.comments.length
    rw [hrun1]
    refine ⟨rfl, rfl, ?_⟩
    show st.comments.length + st.comments.length = 2 * st.comments.length
    omega
  · obtain ⟨chs2, hlen, hshape, hsim⟩ := simChannels env u
      (st.channels.filter (fun c => c.userId == u)) [] st (by simp)
      (by simpa using hNd)
    have hrun1 : scrapeVideos env (some u) st =
        processChannels env u
          (st.channels.filter (fun c => c.userId == u)) st := by
      simp only [scrapeVideos]
      rw [if_neg hemp]
    have hch2 : (scrapeVideos env (some u) st).store.channels.filter
        (fun c => c.userId == u) = chs2 := by
      rw [hrun1]
      simpa using hshape
    have hne2 : ¬ chs2.isEmpty = true := by
      have h0 : ¬ (st.channels.filter (fun c => c.userId == u)).length = 0 := by
        intro h
        exact hemp (List.isEmpty_iff_length_eq_zero.mpr h)
      intro h
      exact h0 (by rw [← hlen]; exact List.isEmpty_iff_length_eq_zero.mp h)
    have hrun2gen : ∀ S : Store,
        S.channels.filter (fun c => c.userId == u) = chs2 →
        scrapeVideos env (some u) S = processChannels env u chs2 S := by
      intro S hSc
      simp only [scrapeVideos]
      rw [hSc, if_neg hne2]
    have hrun2 := hrun2gen (scrapeVideos env (some u) st).store hch2
    have hs := hsim (scrapeVideos env (some u) st).store
      (fun x hx => by rw [hrun1]; exact hx)
      (fun _ => by rw [hrun1])
    rw [hrun1] at hs
    rw [hrun2, hrun1]
    refine ⟨hs.2.2.1, hs.2.1, ?_⟩
    rw [Nat.two_mul]
    exact hs.2.2.2

/-- An unresolved channel of user u1. -/
def chanU1un : ChannelRow :=
  { id := 3,
    name := "Tech",
    channelId := none,
    userId := "u1",
    updatedAt := 0 }

/-- A store holding only `chanU1un`. -/
def stTwoRun : Store :=
  { channels := [chanU1un],
    videos := [],
    comments := [],
    nextId := 0 }

/-- A one-channel, one-video, one-comment upstream catalog. -/
def envTwoRun : Env :=
  { search := fun _ => some "UCX",
    listPages := fun _ => [some (["v1"], false)],
    detailsResp := fun _ => some [itemV1],
    commentPages := fun _ => [some ([sampleComment], false)],
    now := 2 }

/-- Witness for C2: a concrete double ingestion over a catalog with one
resolvable channel, one video and one comment. -/
theorem scrapeVideos_second_run_witness :
    (scrapeVideos envTwoRun (some "u1")
      (scrapeVideos envTwoRun (some "u1") stTwoRun).store).newVideos = [] ∧
    (scrapeVideos envTwoRun (some "u1")
        (scrapeVideos envTwoRun (some "u1") stTwoRun).store).store.videos =
      (scrapeVideos envTwoRun (some "u1") stTwoRun).store.videos ∧
    (scrapeVideos envTwoRun (some "u1")
          (scrapeVideos envTwoRun (some "u1")
            stTwoRun).store).store.comments.length +
        stTwoRun.comments.length =
      2 * (scrapeVideos envTwoRun (some "u1")
        stTwoRun).store.comments.length :=
  scrapeVideos_second_run envTwoRun "u1" stTwoRun (by decide)
